import Mathlib

/-!
Verification of the `rollstats` rolling-statistics library.

The embedding is an exact-arithmetic reading of the Python source:
machine floats are modelled as rationals with an explicit NaN element
(`PyFloat`), so that Welford's update/downdate arithmetic can be checked
exactly.  `MemoryFloat`, `Container`, `Container.push`, `Container._pop`
and the observer ("hook") machinery of `MemoryFloat.connect` are each
translated directly from `src/rollstats/__init__.py`.
-/

namespace RollStats

/-- A Python float in the exact-arithmetic reading: either a finite
rational value or NaN.  (Infinities never arise in the modelled code
paths: all pushed samples are finite.) -/
inductive PyFloat where
  | val (q : ℚ)
  | nan
deriving DecidableEq, Repr

namespace PyFloat

/-- Python `+` on floats: NaN propagates. -/
def add : PyFloat → PyFloat → PyFloat
  | val a, val b => val (a + b)
  | _, _ => nan

/-- Python `-` on floats: NaN propagates. -/
def sub : PyFloat → PyFloat → PyFloat
  | val a, val b => val (a - b)
  | _, _ => nan

/-- Python `*` on floats: NaN propagates. -/
def mul : PyFloat → PyFloat → PyFloat
  | val a, val b => val (a * b)
  | _, _ => nan

/-- Python `/` on floats.  Division by an exact zero raises
`ZeroDivisionError` (modelled as `none`) — even `nan / 0.0` raises.
Any other NaN operand propagates to a NaN result. -/
def div : PyFloat → PyFloat → Option PyFloat
  | _, nan => some nan
  | a, val q =>
      if q = 0 then none
      else some (match a with | val p => val (p / q) | nan => nan)

/-- Division of a running quantity by the sample count `n`.  In the
source (`Container.push` / `Container._pop`) every such division is
guarded so that `n ≥ 1`; the `k = 0` case is unreachable there. -/
def divN : PyFloat → ℕ → PyFloat
  | val a, k => val (a / (k : ℚ))
  | nan, _ => nan

/-- Python `>` on floats: any comparison involving NaN is `False`. -/
def gt : PyFloat → PyFloat → Bool
  | val a, val b => decide (b < a)
  | _, _ => false

end PyFloat

/-- The `window_size` attribute: a finite (possibly fractional or
non-positive) value, or `float("inf")` (the default). -/
inductive WindowSize where
  | fin (q : ℚ)
  | inf
deriving DecidableEq, Repr

/-- `self.n >= self.window_size`: the eviction test in `Container.push`. -/
def WindowSize.evict (ws : WindowSize) (n : ℕ) : Bool :=
  match ws with
  | fin q => decide (q ≤ (n : ℚ))
  | inf => false

/-- `self.window_size <= 0`: the degenerate-mode test in `Container.__init__`. -/
def WindowSize.nonPos (ws : WindowSize) : Bool :=
  match ws with
  | fin q => decide (q ≤ 0)
  | inf => false

/-- A positive (or infinite) window size, i.e. not the degenerate mode. -/
def WindowSize.pos (ws : WindowSize) : Prop :=
  match ws with
  | fin q => 0 < q
  | inf => True

instance : DecidablePred WindowSize.pos := fun ws => by
  cases ws <;> simp [WindowSize.pos] <;> infer_instance

/-- `MemoryFloat`: a value together with its committed history.  The
`hooks` list of the source is modelled separately (see `Subscription`),
since hook firing is what the derived-value claims are about. -/
structure MemoryFloat (α : Type) where
  value : α
  history : List α
deriving DecidableEq, Repr

/-- `MemoryFloat.save` without hooks: append the current value. -/
def MemoryFloat.save {α : Type} (m : MemoryFloat α) : MemoryFloat α :=
  { m with history := m.history ++ [m.value] }

/-- `Container`: the rolling window.  `data` is the retained-sample
deque; the six primary `MemoryFloat`s follow the source.  The count `n`
is kept as a natural number (in the source it is a float that is only
ever incremented/decremented by 1 from 0, so it is integer-valued). -/
structure Container where
  window_size : WindowSize
  data : List ℚ
  value : MemoryFloat PyFloat
  n : ℕ
  nHist : List ℕ
  M : MemoryFloat PyFloat
  S : MemoryFloat PyFloat
  sum : MemoryFloat PyFloat
  reciprocal_sum : MemoryFloat PyFloat
deriving DecidableEq, Repr

namespace Container

/-- The state built by `Container.__init__` before any data is pushed. -/
def init (ws : WindowSize) : Container where
  window_size := ws
  data := []
  value := ⟨PyFloat.nan, []⟩
  n := 0
  nHist := []
  M := ⟨PyFloat.nan, []⟩
  S := ⟨PyFloat.nan, []⟩
  sum := ⟨PyFloat.val 0, []⟩
  reciprocal_sum := ⟨PyFloat.nan, []⟩

/-- `Container._pop`: evict the oldest retained sample.  On an empty
deque the source would raise `IndexError`; that case is unreachable from
`push` (the eviction guard implies a retained sample exists), and the
model returns the state unchanged there. -/
def _pop (c : Container) : Container :=
  match c.data with
  | [] => c
  | out :: rest =>
    let prev_M := c.M.value
    let n' := c.n - 1
    let sum' := c.sum.value.sub (PyFloat.val out)
    if n' = 0 then
      { c with data := rest, n := n',
               sum := { c.sum with value := sum' },
               S := { c.S with value := PyFloat.nan },
               M := { c.M with value := PyFloat.nan },
               reciprocal_sum := { c.reciprocal_sum with value := PyFloat.nan } }
    else
      let cur_diff := (PyFloat.val out).sub c.M.value
      let M' := c.M.value.sub (cur_diff.divN n')
      let S' := c.S.value.sub (cur_diff.mul ((PyFloat.val out).sub prev_M))
      let rec' := if out = 0 then PyFloat.nan
                  else c.reciprocal_sum.value.sub (PyFloat.val (1 / out))
      { c with data := rest, n := n',
               sum := { c.sum with value := sum' },
               M := { c.M with value := M' },
               S := { c.S with value := S' },
               reciprocal_sum := { c.reciprocal_sum with value := rec' } }

/-- `self.value.assign(datapoint)` at the top of the push loop. -/
def setValue (c : Container) (x : ℚ) : Container :=
  { c with value := { c.value with value := PyFloat.val x } }

/-- The eviction step of the push loop: `if self.n >= self.window_size: self._pop()`. -/
def maybePop (c : Container) : Container :=
  if c.window_size.evict c.n then c._pop else c

/-- Steps 4–7 of the push loop: reciprocal, counters, and the Welford
update (first-sample branch vs. running branch). -/
def welfordStep (c : Container) (x : ℚ) : Container :=
  let reciprocal := if x = 0 then PyFloat.nan else PyFloat.val (1 / x)
  let n' := c.n + 1
  let sum' := c.sum.value.add (PyFloat.val x)
  if n' = 1 then
    { c with n := n',
             sum := { c.sum with value := sum' },
             S := { c.S with value := PyFloat.val 0 },
             M := { c.M with value := PyFloat.val x },
             reciprocal_sum := { c.reciprocal_sum with value := reciprocal } }
  else
    let prev_M := c.M.value
    let cur_diff := (PyFloat.val x).sub prev_M
    let M' := c.M.value.add (cur_diff.divN n')
    let S' := c.S.value.add (cur_diff.mul ((PyFloat.val x).sub M'))
    { c with n := n',
             sum := { c.sum with value := sum' },
             M := { c.M with value := M' },
             S := { c.S with value := S' },
             reciprocal_sum := { c.reciprocal_sum with value := c.reciprocal_sum.value.add reciprocal } }

/-- `Container.save`: commit every primary `MemoryFloat` (the fixed
`mem_floats` order is `value, n, S, M, sum, reciprocal_sum`). -/
def save (c : Container) : Container :=
  { c with value := c.value.save,
           nHist := c.nHist ++ [c.n],
           S := c.S.save,
           M := c.M.save,
           sum := c.sum.save,
           reciprocal_sum := c.reciprocal_sum.save }

/-- The body of the `for datapoint in datapoints` loop in `Container.push`. -/
def processPoint (c : Container) (x : ℚ) : Container :=
  ((((c.setValue x).maybePop).welfordStep x)).save

/-- `Container.push(*datapoints)`: the deque is extended with the whole
batch first, then each datapoint is processed in order. -/
def push (c : Container) (xs : List ℚ) : Container :=
  xs.foldl processPoint { c with data := c.data ++ xs }

/-- Pushing a single datapoint. -/
def push1 (c : Container) (x : ℚ) : Container :=
  c.push [x]

/-- Calling the `push` attribute of a constructed container.  When
`window_size <= 0`, `__init__` replaces `push` with
`lambda datapoints: None`, which accepts exactly one positional
argument; calling it with any other number of arguments raises
`TypeError` (modelled as `none`). -/
def pushCall (c : Container) (xs : List ℚ) : Option Container :=
  if c.window_size.nonPos then
    if xs.length = 1 then some c else none
  else
    some (c.push xs)

end Container

/-- The post-push states of a container constructed with window size
`ws`: the initial state, and the result of any completed `push` call on
a reachable state.  The step is guarded by `ws.pos` because for
`window_size <= 0` the real `push` method is replaced by a no-op lambda
(`Container.pushCall`), so those containers never leave their initial
state. -/
inductive Reached (ws : WindowSize) : Container → Prop where
  | init : Reached ws (Container.init ws)
  | step (c : Container) (xs : List ℚ) (hws : ws.pos) (hc : Reached ws c) :
      Reached ws (c.push xs)

/-! ### The reachable-state invariant -/

/-- The state invariant maintained by `push`: the count matches the
retained deque, the running sum is the exact sum of the deque, an empty
window has NaN statistics, and all primary histories are aligned. -/
structure Inv (c : Container) : Prop where
  hlen : c.n = c.data.length
  hsum : c.sum.value = PyFloat.val c.data.sum
  hempty : c.n = 0 →
    c.S.value = PyFloat.nan ∧ c.M.value = PyFloat.nan ∧
      c.reciprocal_sum.value = PyFloat.nan
  hval : c.value.history.length = c.nHist.length
  hS : c.S.history.length = c.nHist.length
  hM : c.M.history.length = c.nHist.length
  hsumh : c.sum.history.length = c.nHist.length
  hrec : c.reciprocal_sum.history.length = c.nHist.length

/-! ### Draining the window by repeated eviction -/

/-- Iterated `_pop`. -/
def Container.popN (c : Container) : ℕ → Container
  | 0 => c
  | k + 1 => Container.popN c._pop k

/-! ### The observer / join-barrier machinery (`MemoryFloat.connect`)

`Container.save` commits the six primaries in the fixed `mem_floats`
order `(value, n, S, M, sum, reciprocal_sum)`; committing a primary
fires the hooks attached to it.  A `connect` closure keeps a `pool` of
the input identities that have fired since the barrier last completed;
when the pool equals the full input set it recomputes the output,
commits it, and clears the pool. -/

/-- The `mem_floats` commit order, as indices `0 = value`, `1 = n`,
`2 = S`, `3 = M`, `4 = sum`, `5 = reciprocal_sum`. -/
def saveOrder : List (Fin 6) := [0, 1, 2, 3, 4, 5]

/-- The committed current values of the six primaries of a container. -/
def primVec (c : Container) : Fin 6 → PyFloat := fun i =>
  match i with
  | 0 => c.value.value
  | 1 => PyFloat.val (c.n : ℚ)
  | 2 => c.S.value
  | 3 => c.M.value
  | 4 => c.sum.value
  | 5 => c.reciprocal_sum.value

/-- A subscription created by `Container.subscribe`: the set of input
identities and the combining function.  The function reads the inputs'
committed values and may raise an exception (`none`). -/
structure Subscription (α : Type) where
  inputs : Finset (Fin 6)
  f : (Fin 6 → PyFloat) → Option α

/-- The mutable state of one `MemoryFloat.connect` closure. -/
structure LinkState (α : Type) where
  pool : Finset (Fin 6)
  output : MemoryFloat α
deriving DecidableEq

/-- The fresh output created by `subscribe` (a `MemoryFloat(nan)`). -/
def initLink {α : Type} (a : α) : LinkState α := ⟨∅, ⟨a, []⟩⟩

/-- The hook body in `MemoryFloat.connect`, fired when input `i` saves. -/
def hookStep {α : Type} (sub : Subscription α) (vals : Fin 6 → PyFloat)
    (ls : LinkState α) (i : Fin 6) : Option (LinkState α) :=
  if i ∈ sub.inputs then
    let pool' := insert i ls.pool
    if pool' = sub.inputs then
      match sub.f vals with
      | none => none
      | some y => some ⟨∅, ⟨y, ls.output.history ++ [y]⟩⟩
    else some ⟨pool', ls.output⟩
  else some ls

/-- Fire the hooks of the given primaries in order. -/
def runHooks {α : Type} (sub : Subscription α) (vals : Fin 6 → PyFloat) :
    List (Fin 6) → LinkState α → Option (LinkState α)
  | [], ls => some ls
  | i :: rest, ls =>
      match hookStep sub vals ls i with
      | none => none
      | some ls' => runHooks sub vals rest ls'

/-- One full commit cycle (`Container.save`) as seen by one subscription. -/
def saveCycle {α : Type} (sub : Subscription α) (vals : Fin 6 → PyFloat)
    (ls : LinkState α) : Option (LinkState α) :=
  runHooks sub vals saveOrder ls

/-- The pool contents after firing hooks (control part of `runHooks`). -/
def poolAfter (I : Finset (Fin 6)) : Finset (Fin 6) → List (Fin 6) → Finset (Fin 6)
  | p, [] => p
  | p, i :: rest =>
      if i ∈ I then
        (if insert i p = I then poolAfter I ∅ rest else poolAfter I (insert i p) rest)
      else poolAfter I p rest

/-- How many times the join barrier fires along a hook sequence. -/
def fireCount (I : Finset (Fin 6)) : Finset (Fin 6) → List (Fin 6) → ℕ
  | _, [] => 0
  | p, i :: rest =>
      if i ∈ I then
        (if insert i p = I then fireCount I ∅ rest + 1 else fireCount I (insert i p) rest)
      else fireCount I p rest

/-- Iterate commit cycles over a trace of committed primary vectors. -/
def runCycles {α : Type} (sub : Subscription α) :
    List (Fin 6 → PyFloat) → LinkState α → Option (LinkState α)
  | [], ls => some ls
  | v :: tr, ls =>
      match saveCycle sub v ls with
      | none => none
      | some ls' => runCycles sub tr ls'

/-- The life of one subscription along a container run: fold the commit
cycles over the trace, starting from the fresh output of `subscribe`. -/
def runSubscription {α : Type} (sub : Subscription α) (a : α)
    (trace : List (Fin 6 → PyFloat)) : Option (LinkState α) :=
  runCycles sub trace (initLink a)

/-! ### Derived statistics

The module-level formulas (`var`, `std`, `zscore`, `pop_var`, `pop_std`)
and the `subscribe_*` lambdas.  Square roots land in the reals, so the
std-family outputs live in `RFloat`, the real-valued analogue of
`PyFloat`. -/

/-- A real-valued Python float (for `math.sqrt` results). -/
inductive RFloat where
  | val (x : ℝ)
  | nan

/-- Embed an exact rational float into the reals. -/
def PyFloat.toR : PyFloat → RFloat
  | PyFloat.val q => RFloat.val (q : ℝ)
  | PyFloat.nan => RFloat.nan

/-- `math.sqrt`: NaN maps to NaN, a negative argument raises
`ValueError` (`none`). -/
noncomputable def pySqrt : PyFloat → Option RFloat
  | PyFloat.nan => some RFloat.nan
  | PyFloat.val q => if q < 0 then none else some (RFloat.val (Real.sqrt (q : ℝ)))

/-- Python `/` with a real-valued numerator/denominator: division by an
exact zero raises `ZeroDivisionError` (`none`); NaN propagates. -/
noncomputable def RFloat.div : RFloat → RFloat → Option RFloat
  | a, RFloat.val x =>
      if x = 0 then none
      else some (match a with
        | RFloat.val p => RFloat.val (p / x)
        | RFloat.nan => RFloat.nan)
  | _, RFloat.nan => some RFloat.nan

/-- `var(S, n)`: sample variance, `(S / (n - 1)) if n > 1 else nan`. -/
def var (S n : PyFloat) : Option PyFloat :=
  if n.gt (PyFloat.val 1) then S.div (n.sub (PyFloat.val 1)) else some PyFloat.nan

/-- `std(S, n)`: sample standard deviation,
`math.sqrt(S / (n - 1)) if n > 1 else nan`. -/
noncomputable def std (S n : PyFloat) : Option RFloat :=
  if n.gt (PyFloat.val 1) then (S.div (n.sub (PyFloat.val 1))).bind pySqrt
  else some RFloat.nan

/-- The z-score guard `S > 0 and n > 0`. -/
def zscoreGuard (S n : PyFloat) : Bool :=
  S.gt (PyFloat.val 0) && n.gt (PyFloat.val 0)

/-- `zscore(S, n, value, M)`:
`(value - M) / std(S, n) if S > 0 and n > 0 else nan`. -/
noncomputable def zscore (S n value M : PyFloat) : Option RFloat :=
  if zscoreGuard S n then (std S n).bind (fun s => (value.sub M).toR.div s)
  else some RFloat.nan

/-- `pop_var(S, n)`: population variance, `(S / n) if n > 1 else nan`. -/
def pop_var (S n : PyFloat) : Option PyFloat :=
  if n.gt (PyFloat.val 1) then S.div n else some PyFloat.nan

/-- `pop_std(S, n)`: population standard deviation,
`math.sqrt(S / n) if n > 1 else nan`. -/
noncomputable def pop_std (S n : PyFloat) : Option RFloat :=
  if n.gt (PyFloat.val 1) then (S.div n).bind pySqrt else some RFloat.nan

/-- `subscribe_var`: inputs `(S, n)`, i.e. identities `{2, 1}`. -/
def varSub : Subscription PyFloat :=
  ⟨{2, 1}, fun v => var (v 2) (v 1)⟩

/-- `subscribe_std`: inputs `(S, n)`. -/
noncomputable def stdSub : Subscription RFloat :=
  ⟨{2, 1}, fun v => std (v 2) (v 1)⟩

/-- `subscribe_pop_var`: inputs `(S, n)`. -/
def pop_varSub : Subscription PyFloat :=
  ⟨{2, 1}, fun v => pop_var (v 2) (v 1)⟩

/-- `subscribe_pop_std`: inputs `(S, n)`. -/
noncomputable def pop_stdSub : Subscription RFloat :=
  ⟨{2, 1}, fun v => pop_std (v 2) (v 1)⟩

/-- `subscribe_z_score`: inputs `(S, n, value, M)`, identities `{2, 1, 0, 3}`. -/
noncomputable def zscoreSub : Subscription RFloat :=
  ⟨{2, 1, 0, 3}, fun v => zscore (v 2) (v 1) (v 0) (v 3)⟩

/-- `subscribe_harmonic_mean`: inputs `(reciprocal_sum, n)`, identities
`{5, 1}`, with `func = lambda rec, n: n / rec`. -/
def harmonic_meanSub : Subscription PyFloat :=
  ⟨{5, 1}, fun v => (v 1).div (v 5)⟩

/-! ### Exact window statistics (for comparison with the code) -/

/-- Arithmetic mean of a sample list. -/
def mean (l : List ℚ) : ℚ := l.sum / l.length

/-- The exact sum of squared deviations Σ(xᵢ − mean)² of a sample list. -/
def sumSqDev (l : List ℚ) : ℚ := (l.map (fun x => (x - mean l) ^ 2)).sum

/-! ### Concrete runs used by the claims

Pushing datapoints one at a time keeps each kernel evaluation small;
`Container.push_eq_foldl` reassembles the batch pushes the claims are
stated about. -/

/-- State after pushing 1 into a fresh window of size 2. -/
def w2s1 : Container :=
  ⟨WindowSize.fin 2, [1], ⟨.val 1, [.val 1]⟩, 1, [1], ⟨.val 1, [.val 1]⟩,
    ⟨.val 0, [.val 0]⟩, ⟨.val 1, [.val 1]⟩, ⟨.val 1, [.val 1]⟩⟩

/-- State after pushing 1, 2 into a fresh window of size 2. -/
def w2s2 : Container :=
  ⟨WindowSize.fin 2, [1, 2], ⟨.val 2, [.val 1, .val 2]⟩, 2, [1, 2],
    ⟨.val (3/2), [.val 1, .val (3/2)]⟩, ⟨.val (1/2), [.val 0, .val (1/2)]⟩,
    ⟨.val 3, [.val 1, .val 3]⟩, ⟨.val (3/2), [.val 1, .val (3/2)]⟩⟩

/-- State after pushing 1, 2, 3 into a fresh window of size 2 (the first
push of 3 evicts the 1). -/
def w2s3 : Container :=
  ⟨WindowSize.fin 2, [2, 3], ⟨.val 3, [.val 1, .val 2, .val 3]⟩, 2, [1, 2, 2],
    ⟨.val (5/2), [.val 1, .val (3/2), .val (5/2)]⟩,
    ⟨.val (3/4), [.val 0, .val (1/2), .val (3/4)]⟩,
    ⟨.val 5, [.val 1, .val 3, .val 5]⟩,
    ⟨.val (5/6), [.val 1, .val (3/2), .val (5/6)]⟩⟩

/-- State after pushing 1 into a fresh window of size 3. -/
def w3s1 : Container :=
  ⟨WindowSize.fin 3, [1], ⟨.val 1, [.val 1]⟩, 1, [1], ⟨.val 1, [.val 1]⟩,
    ⟨.val 0, [.val 0]⟩, ⟨.val 1, [.val 1]⟩, ⟨.val 1, [.val 1]⟩⟩

/-- State after pushing 1, 1 into a fresh window of size 3. -/
def w3s2 : Container :=
  ⟨WindowSize.fin 3, [1, 1], ⟨.val 1, [.val 1, .val 1]⟩, 2, [1, 2],
    ⟨.val 1, [.val 1, .val 1]⟩, ⟨.val 0, [.val 0, .val 0]⟩,
    ⟨.val 2, [.val 1, .val 2]⟩, ⟨.val 2, [.val 1, .val 2]⟩⟩

/-- State after pushing 1, 1, 1 into a fresh window of size 3. -/
def w3s3 : Container :=
  ⟨WindowSize.fin 3, [1, 1, 1], ⟨.val 1, [.val 1, .val 1, .val 1]⟩, 3, [1, 2, 3],
    ⟨.val 1, [.val 1, .val 1, .val 1]⟩, ⟨.val 0, [.val 0, .val 0, .val 0]⟩,
    ⟨.val 3, [.val 1, .val 2, .val 3]⟩, ⟨.val 3, [.val 1, .val 2, .val 3]⟩⟩

/-- State after pushing 1, 1, 1, 0 into a fresh window of size 3 (the
push of 0 evicts the first 1; the zero sample poisons
`reciprocal_sum`). -/
def w3s4 : Container :=
  ⟨WindowSize.fin 3, [1, 1, 0], ⟨.val 0, [.val 1, .val 1, .val 1, .val 0]⟩, 3,
    [1, 2, 3, 3],
    ⟨.val (2/3), [.val 1, .val 1, .val 1, .val (2/3)]⟩,
    ⟨.val (2/3), [.val 0, .val 0, .val 0, .val (2/3)]⟩,
    ⟨.val 2, [.val 1, .val 2, .val 3, .val 2]⟩,
    ⟨.nan, [.val 1, .val 2, .val 3, .nan]⟩⟩

/-- State after pushing 1 into a fresh window of size 5/2. -/
def wqs1 : Container :=
  ⟨WindowSize.fin (5/2), [1], ⟨.val 1, [.val 1]⟩, 1, [1], ⟨.val 1, [.val 1]⟩,
    ⟨.val 0, [.val 0]⟩, ⟨.val 1, [.val 1]⟩, ⟨.val 1, [.val 1]⟩⟩

/-- State after pushing 1, 1 into a fresh window of size 5/2. -/
def wqs2 : Container :=
  ⟨WindowSize.fin (5/2), [1, 1], ⟨.val 1, [.val 1, .val 1]⟩, 2, [1, 2],
    ⟨.val 1, [.val 1, .val 1]⟩, ⟨.val 0, [.val 0, .val 0]⟩,
    ⟨.val 2, [.val 1, .val 2]⟩, ⟨.val 2, [.val 1, .val 2]⟩⟩

/-- State after pushing 1, 1, 1 into a fresh window of size 5/2: three
samples are retained although 3 > 5/2. -/
def wqs3 : Container :=
  ⟨WindowSize.fin (5/2), [1, 1, 1], ⟨.val 1, [.val 1, .val 1, .val 1]⟩, 3, [1, 2, 3],
    ⟨.val 1, [.val 1, .val 1, .val 1]⟩, ⟨.val 0, [.val 0, .val 0, .val 0]⟩,
    ⟨.val 3, [.val 1, .val 2, .val 3]⟩, ⟨.val 3, [.val 1, .val 2, .val 3]⟩⟩

/-- State after pushing 1 into a fresh unbounded window. -/
def wis1 : Container :=
  ⟨WindowSize.inf, [1], ⟨.val 1, [.val 1]⟩, 1, [1], ⟨.val 1, [.val 1]⟩,
    ⟨.val 0, [.val 0]⟩, ⟨.val 1, [.val 1]⟩, ⟨.val 1, [.val 1]⟩⟩

/-- State after pushing 1, −1 into a fresh unbounded window: the
reciprocal sum is exactly 0. -/
def wis2 : Container :=
  ⟨WindowSize.inf, [1, -1], ⟨.val (-1), [.val 1, .val (-1)]⟩, 2, [1, 2],
    ⟨.val 0, [.val 1, .val 0]⟩, ⟨.val 2, [.val 0, .val 2]⟩,
    ⟨.val 0, [.val 1, .val 0]⟩, ⟨.val 0, [.val 1, .val 0]⟩⟩


/-! ### Batch pushes decompose into single pushes

`push` extends the deque with the whole batch before the loop, but the
loop only ever pops the *front* of the deque, so the not-yet-processed
suffix is inert: pushing a batch is the same as pushing its elements one
at a time. -/

namespace Container

theorem _pop_append (c : Container) (ys : List ℚ) (h : c.data ≠ []) :
    Container._pop { c with data := c.data ++ ys } =
      { c._pop with data := c._pop.data ++ ys } := by
  obtain ⟨out, rest, hd⟩ : ∃ out rest, c.data = out :: rest := by
    cases hc : c.data with
    | nil => exact absurd hc h
    | cons a l => exact ⟨a, l, rfl⟩
  simp only [Container._pop, hd, List.cons_append]
  split <;> rfl

theorem setValue_data (c : Container) (x : ℚ) (d : List ℚ) :
    Container.setValue { c with data := d } x = { c.setValue x with data := d } := rfl

theorem welfordStep_data (c : Container) (x : ℚ) (d : List ℚ) :
    Container.welfordStep { c with data := d } x = { c.welfordStep x with data := d } := by
  simp only [Container.welfordStep]
  split <;> rfl

theorem save_data (c : Container) (d : List ℚ) :
    Container.save { c with data := d } = { c.save with data := d } := rfl

theorem maybePop_append (c : Container) (ys : List ℚ) (h : c.data ≠ []) :
    Container.maybePop { c with data := c.data ++ ys } =
      { c.maybePop with data := c.maybePop.data ++ ys } := by
  simp only [Container.maybePop]
  split
  · exact _pop_append c ys h
  · rfl

theorem welfordStep_data_eq (c : Container) (x : ℚ) :
    (c.welfordStep x).data = c.data := by
  simp only [Container.welfordStep]
  split <;> rfl

@[simp] theorem save_data_eq (c : Container) : c.save.data = c.data := rfl

theorem processPoint_append (c : Container) (x : ℚ) (ys : List ℚ) (h : c.data ≠ []) :
    Container.processPoint { c with data := c.data ++ ys } x =
      { c.processPoint x with data := (c.processPoint x).data ++ ys } := by
  have hsv : (c.setValue x).data = c.data := rfl
  simp only [Container.processPoint, setValue_data]
  rw [show ({ c.setValue x with data := c.data ++ ys } : Container) =
        { c.setValue x with data := (c.setValue x).data ++ ys } from rfl,
      maybePop_append _ ys (by rw [hsv]; exact h)]
  rw [welfordStep_data, save_data]
  simp [save_data_eq, welfordStep_data_eq]

theorem push_nil (c : Container) : c.push [] = c := by
  simp [Container.push]

theorem push_cons (c : Container) (x : ℚ) (xs : List ℚ) :
    c.push (x :: xs) = (c.push1 x).push xs := by
  have hb : ({ c with data := c.data ++ x :: xs } : Container) =
      { ({ c with data := c.data ++ [x] } : Container) with
        data := ({ c with data := c.data ++ [x] } : Container).data ++ xs } := by
    simp
  have hne : ({ c with data := c.data ++ [x] } : Container).data ≠ [] := by
    simp
  calc c.push (x :: xs)
      = xs.foldl processPoint
          (processPoint { c with data := c.data ++ x :: xs } x) := by
        simp [Container.push]
    _ = xs.foldl processPoint
          ({ processPoint { c with data := c.data ++ [x] } x with
             data := (processPoint { c with data := c.data ++ [x] } x).data ++ xs }) := by
        rw [hb, processPoint_append _ x xs hne]
    _ = (c.push1 x).push xs := by
        simp [Container.push, Container.push1]

theorem push_eq_foldl (c : Container) (xs : List ℚ) :
    c.push xs = xs.foldl Container.push1 c := by
  induction xs generalizing c with
  | nil => simp [push_nil]
  | cons x xs ih => rw [push_cons, List.foldl_cons, ih]

end Container

/-- Closure of a predicate under single pushes lifts to folds. -/
theorem foldl_push1_inv (P : Container → Prop)
    (hstep : ∀ c x, P c → P (c.push1 x)) :
    ∀ (xs : List ℚ) (c : Container), P c → P (xs.foldl Container.push1 c) := by
  intro xs
  induction xs with
  | nil => intro c hc; exact hc
  | cons x xs ih => intro c hc; exact ih _ (hstep c x hc)

/-- Induction principle for reachable states, one datapoint at a time. -/
theorem reached_inv (ws : WindowSize) (P : Container → Prop)
    (hinit : P (Container.init ws))
    (hstep : ∀ c x, ws.pos → P c → P (c.push1 x)) :
    ∀ c, Reached ws c → P c := by
  intro c h
  induction h with
  | init => exact hinit
  | step c xs hws _ ih =>
      rw [Container.push_eq_foldl]
      exact foldl_push1_inv P (fun c x hp => hstep c x hws hp) xs c ih

/-! ### Field-level description of a single push -/

namespace Container

@[simp] theorem save_window_size (c : Container) : c.save.window_size = c.window_size := rfl
@[simp] theorem save_n (c : Container) : c.save.n = c.n := rfl
@[simp] theorem save_sum_value (c : Container) : c.save.sum.value = c.sum.value := rfl
@[simp] theorem save_S_value (c : Container) : c.save.S.value = c.S.value := rfl
@[simp] theorem save_M_value (c : Container) : c.save.M.value = c.M.value := rfl
@[simp] theorem save_rec_value (c : Container) :
    c.save.reciprocal_sum.value = c.reciprocal_sum.value := rfl
@[simp] theorem save_value_value (c : Container) : c.save.value.value = c.value.value := rfl
@[simp] theorem save_nHist (c : Container) : c.save.nHist = c.nHist ++ [c.n] := rfl
@[simp] theorem save_value_history (c : Container) :
    c.save.value.history = c.value.history ++ [c.value.value] := rfl
@[simp] theorem save_S_history (c : Container) :
    c.save.S.history = c.S.history ++ [c.S.value] := rfl
@[simp] theorem save_M_history (c : Container) :
    c.save.M.history = c.M.history ++ [c.M.value] := rfl
@[simp] theorem save_sum_history (c : Container) :
    c.save.sum.history = c.sum.history ++ [c.sum.value] := rfl
@[simp] theorem save_rec_history (c : Container) :
    c.save.reciprocal_sum.history = c.reciprocal_sum.history ++ [c.reciprocal_sum.value] := rfl

@[simp] theorem welfordStep_n (c : Container) (x : ℚ) : (c.welfordStep x).n = c.n + 1 := by
  simp only [welfordStep]; split <;> rfl
@[simp] theorem welfordStep_window_size (c : Container) (x : ℚ) :
    (c.welfordStep x).window_size = c.window_size := by
  simp only [welfordStep]; split <;> rfl
@[simp] theorem welfordStep_sum_value (c : Container) (x : ℚ) :
    (c.welfordStep x).sum.value = c.sum.value.add (PyFloat.val x) := by
  simp only [welfordStep]; split <;> rfl
@[simp] theorem welfordStep_value (c : Container) (x : ℚ) :
    (c.welfordStep x).value = c.value := by
  simp only [welfordStep]; split <;> rfl
@[simp] theorem welfordStep_nHist (c : Container) (x : ℚ) :
    (c.welfordStep x).nHist = c.nHist := by
  simp only [welfordStep]; split <;> rfl
@[simp] theorem welfordStep_S_history (c : Container) (x : ℚ) :
    (c.welfordStep x).S.history = c.S.history := by
  simp only [welfordStep]; split <;> rfl
@[simp] theorem welfordStep_M_history (c : Container) (x : ℚ) :
    (c.welfordStep x).M.history = c.M.history := by
  simp only [welfordStep]; split <;> rfl
@[simp] theorem welfordStep_sum_history (c : Container) (x : ℚ) :
    (c.welfordStep x).sum.history = c.sum.history := by
  simp only [welfordStep]; split <;> rfl
@[simp] theorem welfordStep_rec_history (c : Container) (x : ℚ) :
    (c.welfordStep x).reciprocal_sum.history = c.reciprocal_sum.history := by
  simp only [welfordStep]; split <;> rfl

/-- The first-sample branch of the Welford update. -/
theorem welfordStep_first (c : Container) (x : ℚ) (h : c.n = 0) :
    (c.welfordStep x).S.value = PyFloat.val 0 ∧
      (c.welfordStep x).M.value = PyFloat.val x := by
  simp only [welfordStep, h]
  exact ⟨rfl, rfl⟩

theorem _pop_window_size (c : Container) : c._pop.window_size = c.window_size := by
  simp only [_pop]
  split
  · rfl
  · split <;> rfl

theorem _pop_cons_n (c : Container) (out : ℚ) (rest : List ℚ) (h : c.data = out :: rest) :
    c._pop.n = c.n - 1 := by
  simp only [_pop, h]; split <;> rfl

theorem _pop_cons_data (c : Container) (out : ℚ) (rest : List ℚ) (h : c.data = out :: rest) :
    c._pop.data = rest := by
  simp only [_pop, h]; split <;> rfl

theorem _pop_cons_sum (c : Container) (out : ℚ) (rest : List ℚ) (h : c.data = out :: rest) :
    c._pop.sum.value = c.sum.value.sub (PyFloat.val out) := by
  simp only [_pop, h]; split <;> rfl

theorem _pop_cons_value (c : Container) (out : ℚ) (rest : List ℚ) (h : c.data = out :: rest) :
    c._pop.value = c.value := by
  simp only [_pop, h]; split <;> rfl

theorem _pop_cons_nHist (c : Container) (out : ℚ) (rest : List ℚ) (h : c.data = out :: rest) :
    c._pop.nHist = c.nHist := by
  simp only [_pop, h]; split <;> rfl

theorem _pop_cons_S_history (c : Container) (out : ℚ) (rest : List ℚ) (h : c.data = out :: rest) :
    c._pop.S.history = c.S.history := by
  simp only [_pop, h]; split <;> rfl

theorem _pop_cons_M_history (c : Container) (out : ℚ) (rest : List ℚ) (h : c.data = out :: rest) :
    c._pop.M.history = c.M.history := by
  simp only [_pop, h]; split <;> rfl

theorem _pop_cons_sum_history (c : Container) (out : ℚ) (rest : List ℚ) (h : c.data = out :: rest) :
    c._pop.sum.history = c.sum.history := by
  simp only [_pop, h]; split <;> rfl

theorem _pop_cons_rec_history (c : Container) (out : ℚ) (rest : List ℚ) (h : c.data = out :: rest) :
    c._pop.reciprocal_sum.history = c.reciprocal_sum.history := by
  simp only [_pop, h]; split <;> rfl

/-- Evicting the last retained sample resets `S`, `M`, `reciprocal_sum` to NaN. -/
theorem _pop_cons_toEmpty (c : Container) (out : ℚ) (rest : List ℚ)
    (h : c.data = out :: rest) (h0 : c.n - 1 = 0) :
    c._pop.S.value = PyFloat.nan ∧ c._pop.M.value = PyFloat.nan ∧
      c._pop.reciprocal_sum.value = PyFloat.nan := by
  simp only [_pop, h, h0]
  exact ⟨rfl, rfl, rfl⟩

/-- `push1` written as the composite of its stages. -/
theorem push1_eq (c : Container) (x : ℚ) :
    c.push1 x =
      ((({ c with
            data := c.data ++ [x],
            value := { value := PyFloat.val x, history := c.value.history } } :
          Container).maybePop).welfordStep x).save := rfl

end Container

theorem inv_init (ws : WindowSize) : Inv (Container.init ws) := by
  constructor <;> simp [Container.init]

theorem inv_push1 (c : Container) (x : ℚ) (hws : c.window_size.pos) (h : Inv c) :
    Inv (c.push1 x) := by
  rw [Container.push1_eq]
  set b : Container :=
    { c with data := c.data ++ [x], value := ⟨PyFloat.val x, c.value.history⟩ } with hbdef
  have hbn : b.n = c.n := rfl
  have hbdata : b.data = c.data ++ [x] := rfl
  by_cases hev : b.window_size.evict b.n = true
  · -- eviction fires: the window had at least one sample
    have hn1 : 1 ≤ c.n := by
      cases hw : c.window_size with
      | inf =>
          rw [show b.window_size = c.window_size from rfl, hw] at hev
          simp [WindowSize.evict] at hev
      | fin q =>
          rw [show b.window_size = c.window_size from rfl, hw] at hev
          simp only [WindowSize.evict, decide_eq_true_eq] at hev
          rw [hw] at hws
          simp only [WindowSize.pos] at hws
          have h2 : (0 : ℚ) < (c.n : ℚ) := lt_of_lt_of_le hws hev
          by_contra hcon
          have hc0 : c.n = 0 := by omega
          rw [hc0] at h2
          norm_num at h2
    obtain ⟨d0, dr, hd⟩ : ∃ d0 dr, c.data = d0 :: dr := by
      cases hc : c.data with
      | nil =>
          exfalso
          have hl := h.hlen
          rw [hc] at hl
          simp at hl
          omega
      | cons a l => exact ⟨a, l, rfl⟩
    have hbd : b.data = d0 :: (dr ++ [x]) := by rw [hbdata, hd]; rfl
    simp only [Container.maybePop]
    rw [if_pos hev]
    have hpn : b._pop.n = c.n - 1 := Container._pop_cons_n b d0 _ hbd
    have hpd : b._pop.data = dr ++ [x] := Container._pop_cons_data b d0 _ hbd
    have hps : b._pop.sum.value = c.sum.value.sub (PyFloat.val d0) :=
      Container._pop_cons_sum b d0 _ hbd
    constructor
    · -- count vs deque length
      show ((b._pop.welfordStep x).save).n = ((b._pop.welfordStep x).save).data.length
      rw [Container.save_n, Container.welfordStep_n, hpn,
        Container.save_data_eq, Container.welfordStep_data_eq, hpd]
      have hl := h.hlen
      rw [hd] at hl
      simp only [List.length_append, List.length_cons, List.length_nil] at hl ⊢
      omega
    · -- running sum is the deque sum
      show ((b._pop.welfordStep x).save).sum.value =
        PyFloat.val ((b._pop.welfordStep x).save).data.sum
      rw [Container.save_sum_value, Container.welfordStep_sum_value, hps,
        Container.save_data_eq, Container.welfordStep_data_eq, hpd]
      rw [h.hsum, hd]
      simp only [PyFloat.sub, PyFloat.add, List.sum_cons, List.sum_append,
        List.sum_nil, PyFloat.val.injEq]
      ring
    · -- count is positive after a push
      simp only [Container.save_n, Container.welfordStep_n]
      omega
    · simp only [Container.save_value_history, Container.save_nHist, List.length_append,
        Container.welfordStep_value, Container.welfordStep_nHist,
        Container._pop_cons_value b d0 _ hbd, Container._pop_cons_nHist b d0 _ hbd]
      have := h.hval
      simp [hbdef] at this ⊢
      omega
    · simp only [Container.save_S_history, Container.save_nHist, List.length_append,
        Container.welfordStep_S_history, Container.welfordStep_nHist,
        Container._pop_cons_S_history b d0 _ hbd, Container._pop_cons_nHist b d0 _ hbd]
      have := h.hS
      simp [hbdef] at this ⊢
      omega
    · simp only [Container.save_M_history, Container.save_nHist, List.length_append,
        Container.welfordStep_M_history, Container.welfordStep_nHist,
        Container._pop_cons_M_history b d0 _ hbd, Container._pop_cons_nHist b d0 _ hbd]
      have := h.hM
      simp [hbdef] at this ⊢
      omega
    · simp only [Container.save_sum_history, Container.save_nHist, List.length_append,
        Container.welfordStep_sum_history, Container.welfordStep_nHist,
        Container._pop_cons_sum_history b d0 _ hbd, Container._pop_cons_nHist b d0 _ hbd]
      have := h.hsumh
      simp [hbdef] at this ⊢
      omega
    · simp only [Container.save_rec_history, Container.save_nHist, List.length_append,
        Container.welfordStep_rec_history, Container.welfordStep_nHist,
        Container._pop_cons_rec_history b d0 _ hbd, Container._pop_cons_nHist b d0 _ hbd]
      have := h.hrec
      simp [hbdef] at this ⊢
      omega
  · -- no eviction
    simp only [Container.maybePop]
    rw [if_neg (by simpa using hev)]
    constructor
    · show ((b.welfordStep x).save).n = ((b.welfordStep x).save).data.length
      rw [Container.save_n, Container.welfordStep_n, hbn,
        Container.save_data_eq, Container.welfordStep_data_eq, hbdata]
      have hl := h.hlen
      simp only [List.length_append, List.length_singleton]
      omega
    · show ((b.welfordStep x).save).sum.value =
        PyFloat.val ((b.welfordStep x).save).data.sum
      rw [Container.save_sum_value, Container.welfordStep_sum_value,
        Container.save_data_eq, Container.welfordStep_data_eq, hbdata,
        show b.sum = c.sum from rfl, h.hsum]
      simp [PyFloat.add]
    · simp only [Container.save_n, Container.welfordStep_n]
      omega
    · simp only [Container.save_value_history, Container.save_nHist, List.length_append,
        Container.welfordStep_value, Container.welfordStep_nHist]
      have := h.hval
      simp [hbdef] at this ⊢
      omega
    · simp only [Container.save_S_history, Container.save_nHist, List.length_append,
        Container.welfordStep_S_history, Container.welfordStep_nHist]
      have := h.hS
      simp [hbdef] at this ⊢
      omega
    · simp only [Container.save_M_history, Container.save_nHist, List.length_append,
        Container.welfordStep_M_history, Container.welfordStep_nHist]
      have := h.hM
      simp [hbdef] at this ⊢
      omega
    · simp only [Container.save_sum_history, Container.save_nHist, List.length_append,
        Container.welfordStep_sum_history, Container.welfordStep_nHist]
      have := h.hsumh
      simp [hbdef] at this ⊢
      omega
    · simp only [Container.save_rec_history, Container.save_nHist, List.length_append,
        Container.welfordStep_rec_history, Container.welfordStep_nHist]
      have := h.hrec
      simp [hbdef] at this ⊢
      omega

theorem maybePop_window_size (c : Container) : c.maybePop.window_size = c.window_size := by
  simp only [Container.maybePop]
  split
  · exact Container._pop_window_size c
  · rfl

theorem push1_window_size (c : Container) (x : ℚ) :
    (c.push1 x).window_size = c.window_size := by
  rw [Container.push1_eq]
  rw [Container.save_window_size, Container.welfordStep_window_size, maybePop_window_size]

/-- Every reachable state satisfies the invariant (and has the window
size it was constructed with). -/
theorem reached_Inv (ws : WindowSize) (c : Container) (h : Reached ws c) :
    c.window_size = ws ∧ Inv c := by
  refine reached_inv ws (fun c => c.window_size = ws ∧ Inv c)
    ⟨rfl, inv_init ws⟩ (fun c x hws hc => ?_) c h
  exact ⟨by rw [push1_window_size]; exact hc.1, inv_push1 c x (hc.1 ▸ hws) hc.2⟩

theorem Container._pop_nHist (c : Container) : c._pop.nHist = c.nHist := by
  simp only [Container._pop]
  split
  · rfl
  · split <;> rfl

/-- Draining a window whose invariants hold empties it back to the
initial statistics: count 0, NaN `S`/`M`/`reciprocal_sum`, and an exact
zero sum. -/
theorem popN_drain :
    ∀ (d : List ℚ) (c : Container), c.data = d → c.n = d.length →
      c.sum.value = PyFloat.val d.sum →
      (c.n = 0 → c.S.value = PyFloat.nan ∧ c.M.value = PyFloat.nan ∧
        c.reciprocal_sum.value = PyFloat.nan) →
      (c.popN c.n).n = 0 ∧ (c.popN c.n).S.value = PyFloat.nan ∧
        (c.popN c.n).M.value = PyFloat.nan ∧
        (c.popN c.n).reciprocal_sum.value = PyFloat.nan ∧
        (c.popN c.n).sum.value = PyFloat.val 0 := by
  intro d
  induction d with
  | nil =>
      intro c hdata hn hsum hnan
      simp only [List.length_nil] at hn
      rw [hn]
      have h0 := hnan hn
      exact ⟨hn, h0.1, h0.2.1, h0.2.2, by simpa using hsum⟩
  | cons out rest ih =>
      intro c hdata hn hsum hnan
      simp only [List.length_cons] at hn
      rw [hn]
      show ((c._pop).popN rest.length).n = 0 ∧ _
      have hpd : c._pop.data = rest := Container._pop_cons_data c out rest hdata
      have hpn : c._pop.n = rest.length := by
        rw [Container._pop_cons_n c out rest hdata, hn]
        omega
      have hpsum : c._pop.sum.value = PyFloat.val rest.sum := by
        rw [Container._pop_cons_sum c out rest hdata, hsum]
        simp only [PyFloat.sub, List.sum_cons, PyFloat.val.injEq]
        ring
      have hpnan : c._pop.n = 0 → c._pop.S.value = PyFloat.nan ∧
          c._pop.M.value = PyFloat.nan ∧
          c._pop.reciprocal_sum.value = PyFloat.nan := by
        intro h0
        rw [hpn] at h0
        exact Container._pop_cons_toEmpty c out rest hdata (by omega)
      have := ih c._pop hpd hpn hpsum hpnan
      rw [hpn] at this
      exact this

/-! ### Count behaviour of a single push -/

theorem Container._pop_n_ne (c : Container) (h : c.data ≠ []) : c._pop.n = c.n - 1 := by
  obtain ⟨out, rest, hd⟩ : ∃ out rest, c.data = out :: rest := by
    cases hc : c.data with
    | nil => exact absurd hc h
    | cons a l => exact ⟨a, l, rfl⟩
  exact Container._pop_cons_n c out rest hd

theorem push1_n (c : Container) (x : ℚ) :
    (c.push1 x).n =
      (if c.window_size.evict c.n then c.n - 1 else c.n) + 1 := by
  rw [Container.push1_eq, Container.save_n, Container.welfordStep_n]
  simp only [Container.maybePop]
  by_cases hev : c.window_size.evict c.n = true
  · rw [if_pos (by exact hev), if_pos hev,
      Container._pop_n_ne _ (by simp)]
  · rw [if_neg (by exact hev), if_neg hev]

theorem push1_n_pos (c : Container) (x : ℚ) : 1 ≤ (c.push1 x).n := by
  rw [push1_n]
  omega

/-- A committed count of 1 can only come from the first-sample branch,
which zeroes `S`. -/
theorem push1_S_of_n_one (c : Container) (x : ℚ) (h : (c.push1 x).n = 1) :
    (c.push1 x).S.value = PyFloat.val 0 := by
  rw [Container.push1_eq] at h ⊢
  rw [Container.save_n, Container.welfordStep_n] at h
  rw [Container.save_S_value]
  exact (Container.welfordStep_first _ x (by omega)).1

/-- Bounded windows never hold more than `⌈window_size⌉` samples. -/
theorem reached_ceil_bound (q : ℚ) (c : Container)
    (h : Reached (WindowSize.fin q) c) (hq : 0 < q) :
    (c.n : ℤ) ≤ ⌈q⌉ := by
  have H : ∀ c, Reached (WindowSize.fin q) c →
      (c.window_size = WindowSize.fin q ∧ (c.n : ℤ) ≤ ⌈q⌉) := by
    refine reached_inv _ _ ⟨rfl, by
      simp only [Container.init]
      simpa using Int.ceil_nonneg hq.le⟩ ?_
    intro c x _ hc
    refine ⟨by rw [push1_window_size]; exact hc.1, ?_⟩
    rw [push1_n, hc.1]
    by_cases hev : (WindowSize.fin q).evict c.n = true
    · rw [if_pos hev]
      simp only [WindowSize.evict, decide_eq_true_eq] at hev
      have hn1 : 1 ≤ c.n := by
        by_contra hcon
        have : c.n = 0 := by omega
        rw [this] at hev
        push_cast at hev
        exact absurd (lt_of_lt_of_le hq hev) (by norm_num)
      have := hc.2
      omega
    · rw [if_neg hev]
      simp only [WindowSize.evict, decide_eq_true_eq] at hev
      push_neg at hev
      have : (c.n : ℤ) < ⌈q⌉ := by
        have := Int.lt_ceil.mpr hev
        exact_mod_cast this
      omega
  exact (H c h).2

theorem Container.maybePop_nHist (c : Container) : c.maybePop.nHist = c.nHist := by
  simp only [Container.maybePop]
  split
  · exact Container._pop_nHist c
  · rfl

theorem push1_nHist_len (c : Container) (x : ℚ) :
    (c.push1 x).nHist.length = c.nHist.length + 1 := by
  rw [Container.push1_eq, Container.save_nHist, List.length_append,
    Container.welfordStep_nHist, Container.maybePop_nHist]
  rfl

/-- Every processed datapoint commits exactly once: the commit count
grows by the number of pushed samples. -/
theorem foldl_nHist_len :
    ∀ (xs : List ℚ) (c : Container),
      (xs.foldl Container.push1 c).nHist.length = c.nHist.length + xs.length := by
  intro xs
  induction xs with
  | nil => intro c; rfl
  | cons x xs ih =>
      intro c
      rw [List.foldl_cons, ih, push1_nHist_len, List.length_cons]
      omega

/-- Each push admits exactly one sample, so the count never exceeds the
number of samples pushed. -/
theorem foldl_n_le :
    ∀ (xs : List ℚ) (c : Container),
      (xs.foldl Container.push1 c).n ≤ c.n + xs.length := by
  intro xs
  induction xs with
  | nil => intro c; simp
  | cons x xs ih =>
      intro c
      rw [List.foldl_cons, List.length_cons]
      have h1 : (c.push1 x).n ≤ c.n + 1 := by
        rw [push1_n]
        split <;> omega
      have h2 := ih (c.push1 x)
      omega

/-- Unbounded windows never evict: the count equals the number of
commits (the common history length). -/
theorem reached_inf_nHist (c : Container) (h : Reached WindowSize.inf c) :
    c.nHist.length = c.n := by
  have H : ∀ c, Reached WindowSize.inf c →
      (c.window_size = WindowSize.inf ∧ c.nHist.length = c.n) := by
    refine reached_inv _ _ ⟨rfl, by simp [Container.init]⟩ ?_
    intro c x _ hc
    refine ⟨by rw [push1_window_size]; exact hc.1, ?_⟩
    rw [push1_n, hc.1, push1_nHist_len, hc.2]
    simp [WindowSize.evict]
  exact (H c h).2

theorem runHooks_some {α : Type} (sub : Subscription α) (vals : Fin 6 → PyFloat)
    (y : α) (hf : sub.f vals = some y) :
    ∀ (order : List (Fin 6)) (ls : LinkState α),
      runHooks sub vals order ls =
        some ⟨poolAfter sub.inputs ls.pool order,
          ⟨if fireCount sub.inputs ls.pool order = 0 then ls.output.value else y,
           ls.output.history ++ List.replicate (fireCount sub.inputs ls.pool order) y⟩⟩ := by
  intro order
  induction order with
  | nil =>
      intro ls
      simp [runHooks, poolAfter, fireCount]
  | cons i rest ih =>
      intro ls
      by_cases hi : i ∈ sub.inputs
      · by_cases hfill : insert i ls.pool = sub.inputs
        · have hstep : hookStep sub vals ls i =
              some ⟨∅, ⟨y, ls.output.history ++ [y]⟩⟩ := by
            simp only [hookStep, if_pos hi, if_pos hfill, hf]
          simp only [runHooks, hstep]
          rw [ih ⟨∅, ⟨y, ls.output.history ++ [y]⟩⟩]
          simp only [poolAfter, fireCount, if_pos hi, if_pos hfill]
          simp [List.replicate_succ]
        · have hstep : hookStep sub vals ls i =
              some ⟨insert i ls.pool, ls.output⟩ := by
            simp only [hookStep, if_pos hi, if_neg hfill]
          simp only [runHooks, hstep]
          rw [ih ⟨insert i ls.pool, ls.output⟩]
          simp only [poolAfter, fireCount, if_pos hi, if_neg hfill]
      · have hstep : hookStep sub vals ls i = some ls := by
          simp only [hookStep, if_neg hi]
        simp only [runHooks, hstep]
        rw [ih ls]
        simp only [poolAfter, fireCount, if_neg hi]

theorem runHooks_none {α : Type} (sub : Subscription α) (vals : Fin 6 → PyFloat)
    (hf : sub.f vals = none) :
    ∀ (order : List (Fin 6)) (ls : LinkState α),
      runHooks sub vals order ls =
        if fireCount sub.inputs ls.pool order = 0
        then some ⟨poolAfter sub.inputs ls.pool order, ls.output⟩
        else none := by
  intro order
  induction order with
  | nil =>
      intro ls
      simp [runHooks, poolAfter, fireCount]
  | cons i rest ih =>
      intro ls
      by_cases hi : i ∈ sub.inputs
      · by_cases hfill : insert i ls.pool = sub.inputs
        · have hstep : hookStep sub vals ls i = none := by
            simp only [hookStep, if_pos hi, if_pos hfill, hf]
          simp only [runHooks, hstep]
          simp only [fireCount, if_pos hi, if_pos hfill]
          simp
        · have hstep : hookStep sub vals ls i =
              some ⟨insert i ls.pool, ls.output⟩ := by
            simp only [hookStep, if_pos hi, if_neg hfill]
          simp only [runHooks, hstep]
          rw [ih ⟨insert i ls.pool, ls.output⟩]
          simp only [poolAfter, fireCount, if_pos hi, if_neg hfill]
      · have hstep : hookStep sub vals ls i = some ls := by
          simp only [hookStep, if_neg hi]
        simp only [runHooks, hstep]
        rw [ih ls]
        simp only [poolAfter, fireCount, if_neg hi]

/-- For every nonempty input set, a full commit cycle starting from an
empty pool fires the barrier exactly once and ends with an empty pool. -/
theorem fireCount_saveOrder (I : Finset (Fin 6)) (h : I ≠ ∅) :
    fireCount I ∅ saveOrder = 1 ∧ poolAfter I ∅ saveOrder = ∅ := by
  revert h
  revert I
  decide

/-- A commit cycle with an empty pool, a nonempty input set and a
successful recomputation fires exactly once: the output is assigned the
recomputed value and committed exactly once, and the pool is cleared. -/
theorem saveCycle_fire {α : Type} (sub : Subscription α) (vals : Fin 6 → PyFloat)
    (ls : LinkState α) (y : α) (hne : sub.inputs ≠ ∅) (hpool : ls.pool = ∅)
    (hf : sub.f vals = some y) :
    saveCycle sub vals ls = some ⟨∅, ⟨y, ls.output.history ++ [y]⟩⟩ := by
  unfold saveCycle
  rw [runHooks_some sub vals y hf saveOrder ls, hpool]
  obtain ⟨h1, h2⟩ := fireCount_saveOrder sub.inputs hne
  rw [h1, h2]
  simp

/-- A commit cycle whose recomputation raises propagates the exception
out of the triggering `save`. -/
theorem saveCycle_err {α : Type} (sub : Subscription α) (vals : Fin 6 → PyFloat)
    (ls : LinkState α) (hne : sub.inputs ≠ ∅) (hpool : ls.pool = ∅)
    (hf : sub.f vals = none) :
    saveCycle sub vals ls = none := by
  unfold saveCycle
  rw [runHooks_none sub vals hf saveOrder ls, hpool,
    (fireCount_saveOrder sub.inputs hne).1]
  simp

/-- Along a trace on which every recomputation succeeds, the output
history receives exactly one entry per commit cycle, in order. -/
theorem runCycles_spec {α : Type} (sub : Subscription α) (hne : sub.inputs ≠ ∅) :
    ∀ (tr : List (Fin 6 → PyFloat)) (ys : List α) (ls : LinkState α),
      ls.pool = ∅ →
      List.Forall₂ (fun v y => sub.f v = some y) tr ys →
      runCycles sub tr ls =
        some ⟨∅, ⟨ys.getLastD ls.output.value, ls.output.history ++ ys⟩⟩ := by
  intro tr
  induction tr with
  | nil =>
      intro ys ls hpool hall
      cases hall
      simp only [runCycles, List.getLastD_nil, List.append_nil]
      rw [← hpool]
  | cons v tr ih =>
      intro ys ls hpool hall
      cases hall with
      | cons hy hrest =>
          rename_i y ys'
          simp only [runCycles, saveCycle_fire sub v ls y hne hpool hy]
          rw [ih ys' ⟨∅, ⟨y, ls.output.history ++ [y]⟩⟩ rfl hrest]
          cases ys' with
          | nil => simp
          | cons z zs =>
              cases hlast : (z :: zs).getLast? with
              | none => simp at hlast
              | some w => simp [hlast]

theorem w2s1_eq : (Container.init (WindowSize.fin 2)).push1 1 = w2s1 := by
  norm_num [Container.push1, Container.push, Container.processPoint, Container.setValue, Container.maybePop, Container._pop, Container.welfordStep, Container.save, MemoryFloat.save, Container.init, WindowSize.evict, PyFloat.add, PyFloat.sub, PyFloat.mul, PyFloat.divN, w2s1]
theorem w2s2_eq : w2s1.push1 2 = w2s2 := by
  norm_num [Container.push1, Container.push, Container.processPoint, Container.setValue, Container.maybePop, Container._pop, Container.welfordStep, Container.save, MemoryFloat.save, Container.init, WindowSize.evict, PyFloat.add, PyFloat.sub, PyFloat.mul, PyFloat.divN, w2s1, w2s2]
theorem w2s3_eq : w2s2.push1 3 = w2s3 := by
  norm_num [Container.push1, Container.push, Container.processPoint, Container.setValue, Container.maybePop, Container._pop, Container.welfordStep, Container.save, MemoryFloat.save, Container.init, WindowSize.evict, PyFloat.add, PyFloat.sub, PyFloat.mul, PyFloat.divN, w2s2, w2s3]

/-- The window-size-2 run, reassembled. -/
theorem run2_eq : (Container.init (WindowSize.fin 2)).push [1, 2, 3] = w2s3 := by
  rw [Container.push_eq_foldl]
  show (((Container.init (WindowSize.fin 2)).push1 1).push1 2).push1 3 = w2s3
  rw [w2s1_eq, w2s2_eq, w2s3_eq]

theorem w3s1_eq : (Container.init (WindowSize.fin 3)).push1 1 = w3s1 := by
  norm_num [Container.push1, Container.push, Container.processPoint, Container.setValue, Container.maybePop, Container._pop, Container.welfordStep, Container.save, MemoryFloat.save, Container.init, WindowSize.evict, PyFloat.add, PyFloat.sub, PyFloat.mul, PyFloat.divN, w3s1]
theorem w3s2_eq : w3s1.push1 1 = w3s2 := by
  norm_num [Container.push1, Container.push, Container.processPoint, Container.setValue, Container.maybePop, Container._pop, Container.welfordStep, Container.save, MemoryFloat.save, Container.init, WindowSize.evict, PyFloat.add, PyFloat.sub, PyFloat.mul, PyFloat.divN, w3s1, w3s2]
theorem w3s3_eq : w3s2.push1 1 = w3s3 := by
  norm_num [Container.push1, Container.push, Container.processPoint, Container.setValue, Container.maybePop, Container._pop, Container.welfordStep, Container.save, MemoryFloat.save, Container.init, WindowSize.evict, PyFloat.add, PyFloat.sub, PyFloat.mul, PyFloat.divN, w3s2, w3s3]
theorem w3s4_eq : w3s3.push1 0 = w3s4 := by
  norm_num [Container.push1, Container.push, Container.processPoint, Container.setValue, Container.maybePop, Container._pop, Container.welfordStep, Container.save, MemoryFloat.save, Container.init, WindowSize.evict, PyFloat.add, PyFloat.sub, PyFloat.mul, PyFloat.divN, w3s3, w3s4]

/-- The window-size-3 run, reassembled. -/
theorem run3_eq : (Container.init (WindowSize.fin 3)).push [1, 1, 1, 0] = w3s4 := by
  rw [Container.push_eq_foldl]
  show ((((Container.init (WindowSize.fin 3)).push1 1).push1 1).push1 1).push1 0 = w3s4
  rw [w3s1_eq, w3s2_eq, w3s3_eq, w3s4_eq]

/-- The first three pushes of the window-size-3 run. -/
theorem run3a_eq : (Container.init (WindowSize.fin 3)).push [1, 1, 1] = w3s3 := by
  rw [Container.push_eq_foldl]
  show (((Container.init (WindowSize.fin 3)).push1 1).push1 1).push1 1 = w3s3
  rw [w3s1_eq, w3s2_eq, w3s3_eq]

theorem wqs1_eq : (Container.init (WindowSize.fin (5/2))).push1 1 = wqs1 := by
  norm_num [Container.push1, Container.push, Container.processPoint, Container.setValue, Container.maybePop, Container._pop, Container.welfordStep, Container.save, MemoryFloat.save, Container.init, WindowSize.evict, PyFloat.add, PyFloat.sub, PyFloat.mul, PyFloat.divN, wqs1]
theorem wqs2_eq : wqs1.push1 1 = wqs2 := by
  norm_num [Container.push1, Container.push, Container.processPoint, Container.setValue, Container.maybePop, Container._pop, Container.welfordStep, Container.save, MemoryFloat.save, Container.init, WindowSize.evict, PyFloat.add, PyFloat.sub, PyFloat.mul, PyFloat.divN, wqs1, wqs2]
theorem wqs3_eq : wqs2.push1 1 = wqs3 := by
  norm_num [Container.push1, Container.push, Container.processPoint, Container.setValue, Container.maybePop, Container._pop, Container.welfordStep, Container.save, MemoryFloat.save, Container.init, WindowSize.evict, PyFloat.add, PyFloat.sub, PyFloat.mul, PyFloat.divN, wqs2, wqs3]

/-- The fractional-window run, reassembled. -/
theorem runq_eq : (Container.init (WindowSize.fin (5/2))).push [1, 1, 1] = wqs3 := by
  rw [Container.push_eq_foldl]
  show (((Container.init (WindowSize.fin (5/2))).push1 1).push1 1).push1 1 = wqs3
  rw [wqs1_eq, wqs2_eq, wqs3_eq]

theorem wis1_eq : (Container.init WindowSize.inf).push1 1 = wis1 := by
  norm_num [Container.push1, Container.push, Container.processPoint, Container.setValue, Container.maybePop, Container._pop, Container.welfordStep, Container.save, MemoryFloat.save, Container.init, WindowSize.evict, PyFloat.add, PyFloat.sub, PyFloat.mul, PyFloat.divN, wis1]
theorem wis2_eq : wis1.push1 (-1) = wis2 := by
  norm_num [Container.push1, Container.push, Container.processPoint, Container.setValue, Container.maybePop, Container._pop, Container.welfordStep, Container.save, MemoryFloat.save, Container.init, WindowSize.evict, PyFloat.add, PyFloat.sub, PyFloat.mul, PyFloat.divN, wis1, wis2]

/-- The unbounded-window run pushing 1, −1, reassembled. -/
theorem runi1_eq : (Container.init WindowSize.inf).push [1] = wis1 := by
  rw [Container.push_eq_foldl]
  show (Container.init WindowSize.inf).push1 1 = wis1
  rw [wis1_eq]

/-- The unbounded-window run pushing 1 then −1, reassembled. -/
theorem runi2_eq : (Container.init WindowSize.inf).push [1, -1] = wis2 := by
  rw [Container.push_eq_foldl]
  show ((Container.init WindowSize.inf).push1 1).push1 (-1) = wis2
  rw [wis1_eq, wis2_eq]

/-! ## Claims -/

/-- C1: the spec claims `S.current` equals Σ(xᵢ − mean)² over the
retained samples in every post-push state, including states reached
through evictions.  Evaluating the code at window_size 2 with pushes
1, 2, 3: the retained window is [2, 3], whose sum of squared deviations
is 1/2, but the code leaves `S.current = 3/4` — the eviction downdate
`S -= cur_diff * (out - prev_M)` uses the pre-eviction mean for both
factors instead of the updated mean, contradicting the source's own
description of `S` ("the current sum of squared differences from the
mean"). -/
theorem claim_C1_code_eval :
    ((Container.init (WindowSize.fin 2)).push [1, 2, 3]).data = [2, 3] ∧
    ((Container.init (WindowSize.fin 2)).push [1, 2, 3]).S.value = PyFloat.val (3/4) ∧
    sumSqDev [2, 3] = 1/2 ∧
    ((Container.init (WindowSize.fin 2)).push [1, 2, 3]).S.value ≠
      PyFloat.val (sumSqDev ((Container.init (WindowSize.fin 2)).push [1, 2, 3]).data) := by
  rw [run2_eq]
  refine ⟨rfl, rfl, ?_, ?_⟩
  · norm_num [sumSqDev, mean]
  · show PyFloat.val (3/4) ≠ PyFloat.val (sumSqDev [2, 3])
    norm_num [sumSqDev, mean]

/-- C2: a derived value whose inputs all lie among the six primaries
fires its join barrier exactly once per commit cycle: the barrier fires
once (`fireCount = 1`), the output is recomputed from the inputs'
current values, and exactly one entry is appended to its history; the
pool is left empty for the next cycle. -/
theorem claim_C2 {α : Type} (sub : Subscription α) (vals : Fin 6 → PyFloat)
    (ls : LinkState α) (y : α) (hne : sub.inputs ≠ ∅) (hpool : ls.pool = ∅)
    (hf : sub.f vals = some y) :
    fireCount sub.inputs ∅ saveOrder = 1 ∧
      saveCycle sub vals ls = some ⟨∅, ⟨y, ls.output.history ++ [y]⟩⟩ :=
  ⟨(fireCount_saveOrder sub.inputs hne).1, saveCycle_fire sub vals ls y hne hpool hf⟩

/-- Witness for C2 at a concrete subscription (`subscribe_var`) and
commit vector. -/
theorem claim_C2_witness :
    varSub.inputs ≠ ∅ ∧ (initLink PyFloat.nan).pool = ∅ ∧
      varSub.f (fun _ => PyFloat.val 0) = some PyFloat.nan ∧
      fireCount varSub.inputs ∅ saveOrder = 1 ∧
      saveCycle varSub (fun _ => PyFloat.val 0) (initLink PyFloat.nan) =
        some ⟨∅, ⟨PyFloat.nan, [PyFloat.nan]⟩⟩ :=
  ⟨by decide, rfl, by decide,
    (claim_C2 varSub (fun _ => PyFloat.val 0) (initLink PyFloat.nan) PyFloat.nan
      (by decide) rfl (by decide)).1,
    (claim_C2 varSub (fun _ => PyFloat.val 0) (initLink PyFloat.nan) PyFloat.nan
      (by decide) rfl (by decide)).2⟩

/-- C3 counterexample: with window_size 3 and pushes 1, 1, 1, 0 (one
eviction), the history of the `value` primary has length 4 while
`n.current = 3`, so `len(history) = n.current` fails for bounded windows
that have evicted. -/
theorem claim_C3_counterexample :
    ((Container.init (WindowSize.fin 3)).push [1, 1, 1, 0]).value.history.length = 4 ∧
    ((Container.init (WindowSize.fin 3)).push [1, 1, 1, 0]).n = 3 ∧
    ((Container.init (WindowSize.fin 3)).push [1, 1, 1, 0]).value.history.length ≠
      ((Container.init (WindowSize.fin 3)).push [1, 1, 1, 0]).n := by
  rw [run3_eq]
  decide

/-- C3 amended: for every positive or infinite window size and every
pushed sequence, each of the six primary histories has length equal to
the total number of pushed samples (so all histories stay mutually
aligned), and a derived value with all-primary inputs likewise appends
exactly one entry per commit cycle; `n.current` is at most the total
number of pushed samples, with equality when the window is unbounded.
Consecutive `push` calls compose into one batched push, so this covers
every observable post-push state. -/
theorem claim_C3_amended (ws : WindowSize) (hws : ws.pos) (xs : List ℚ) :
    (((Container.init ws).push xs).value.history.length = xs.length ∧
     ((Container.init ws).push xs).nHist.length = xs.length ∧
     ((Container.init ws).push xs).S.history.length = xs.length ∧
     ((Container.init ws).push xs).M.history.length = xs.length ∧
     ((Container.init ws).push xs).sum.history.length = xs.length ∧
     ((Container.init ws).push xs).reciprocal_sum.history.length = xs.length) ∧
    ((Container.init ws).push xs).n ≤ xs.length ∧
    (ws = WindowSize.inf → ((Container.init ws).push xs).n = xs.length) ∧
    (∀ (c : Container) (ys zs : List ℚ), (c.push ys).push zs = c.push (ys ++ zs)) ∧
    (∀ (α : Type) (sub : Subscription α) (a : α)
       (tr : List (Fin 6 → PyFloat)) (ys : List α),
       sub.inputs ≠ ∅ →
       List.Forall₂ (fun v y => sub.f v = some y) tr ys →
       ∃ ls, runSubscription sub a tr = some ls ∧
         ls.output.history.length = tr.length) := by
  have hreach : Reached ws ((Container.init ws).push xs) :=
    Reached.step _ xs hws Reached.init
  obtain ⟨-, inv⟩ := reached_Inv ws _ hreach
  have hlen : ((Container.init ws).push xs).nHist.length = xs.length := by
    rw [Container.push_eq_foldl, foldl_nHist_len]
    simp [Container.init]
  refine ⟨⟨?_, hlen, ?_, ?_, ?_, ?_⟩, ?_, ?_, ?_, ?_⟩
  · rw [inv.hval, hlen]
  · rw [inv.hS, hlen]
  · rw [inv.hM, hlen]
  · rw [inv.hsumh, hlen]
  · rw [inv.hrec, hlen]
  · rw [Container.push_eq_foldl]
    have h := foldl_n_le xs (Container.init ws)
    simpa [Container.init] using h
  · intro hinf
    subst hinf
    rw [← reached_inf_nHist _ hreach, hlen]
  · intro c ys zs
    simp only [Container.push_eq_foldl, List.foldl_append]
  · intro α sub a tr ys hne hall
    refine ⟨⟨∅, ⟨ys.getLastD a, ys⟩⟩, ?_, ?_⟩
    · unfold runSubscription
      rw [runCycles_spec sub hne tr ys (initLink a) rfl hall]
      rfl
    · simpa using (List.Forall₂.length_eq hall).symm

/-- Witness for C3 (amended): a bounded window that evicted (size 3,
pushes 1, 1, 1, 0) and an unbounded window with pushes 1, 2. -/
theorem claim_C3_amended_witness :
    ((Container.init (WindowSize.fin 3)).push [1, 1, 1, 0]).value.history.length =
      [(1 : ℚ), 1, 1, 0].length ∧
    ((Container.init (WindowSize.fin 3)).push [1, 1, 1, 0]).n ≤
      [(1 : ℚ), 1, 1, 0].length ∧
    ((Container.init WindowSize.inf).push [1, 2]).n = [(1 : ℚ), 2].length :=
  ⟨(claim_C3_amended (WindowSize.fin 3) (by norm_num [WindowSize.pos]) [1, 1, 1, 0]).1.1,
   (claim_C3_amended (WindowSize.fin 3) (by norm_num [WindowSize.pos]) [1, 1, 1, 0]).2.1,
   (claim_C3_amended WindowSize.inf (show WindowSize.inf.pos from trivial)
      [1, 2]).2.2.1 rfl⟩

/-- C4 counterexample: pushing 1 and −1 into an unbounded window leaves
`reciprocal_sum.current = 0`, and the harmonic-mean recomputation
`n / reciprocal_sum` then raises `ZeroDivisionError` (the run returns
`none`) instead of producing NaN. -/
theorem claim_C4_counterexample :
    ((Container.init WindowSize.inf).push [1, -1]).reciprocal_sum.value = PyFloat.val 0 ∧
    runSubscription harmonic_meanSub PyFloat.nan
      [primVec ((Container.init WindowSize.inf).push [1]),
       primVec ((Container.init WindowSize.inf).push [1, -1])] = none := by
  rw [runi1_eq, runi2_eq]
  decide

/-- C4 amended: the harmonic-mean subscription produces NaN when
`reciprocal_sum.current` is NaN, but when `reciprocal_sum.current` is an
exact zero the recomputation raises `ZeroDivisionError` and the
triggering push fails instead of producing NaN. -/
theorem claim_C4_amended :
    (∀ (vals : Fin 6 → PyFloat) (ls : LinkState PyFloat),
        vals 5 = PyFloat.nan → ls.pool = ∅ →
        saveCycle harmonic_meanSub vals ls =
          some ⟨∅, ⟨PyFloat.nan, ls.output.history ++ [PyFloat.nan]⟩⟩) ∧
    (∀ (vals : Fin 6 → PyFloat) (ls : LinkState PyFloat),
        vals 5 = PyFloat.val 0 → ls.pool = ∅ →
        saveCycle harmonic_meanSub vals ls = none) := by
  constructor
  · intro vals ls h5 hp
    refine saveCycle_fire _ _ _ _ (by decide) hp ?_
    show (vals 1).div (vals 5) = some PyFloat.nan
    rw [h5]
    cases vals 1 <;> rfl
  · intro vals ls h5 hp
    refine saveCycle_err _ _ _ (by decide) hp ?_
    show (vals 1).div (vals 5) = none
    rw [h5]
    cases vals 1 <;> rfl

/-- Witness for C4 (amended) at concrete commit vectors. -/
theorem claim_C4_amended_witness :
    saveCycle harmonic_meanSub (fun _ => PyFloat.nan) (initLink PyFloat.nan) =
      some ⟨∅, ⟨PyFloat.nan, [PyFloat.nan]⟩⟩ ∧
    saveCycle harmonic_meanSub (fun _ => PyFloat.val 0) (initLink PyFloat.nan) = none :=
  ⟨claim_C4_amended.1 _ _ rfl rfl, claim_C4_amended.2 _ _ rfl rfl⟩

/-- C5: for `window_size <= 0` the constructor replaces `push` with
`lambda datapoints: None`, which accepts exactly one positional
argument.  Calling `push` with one value is a silent no-op as the claim
says, but calling it with two values (or none) raises `TypeError` —
contradicting both the claim and the code's own intent (`__init__` even
calls `self.push(*data)` with this replacement in place). -/
theorem claim_C5_code_eval :
    Container.pushCall (Container.init (WindowSize.fin 0)) [1, 2] = none ∧
    Container.pushCall (Container.init (WindowSize.fin 0)) [] = none ∧
    Container.pushCall (Container.init (WindowSize.fin 0)) [5] =
      some (Container.init (WindowSize.fin 0)) := by
  decide

/-- C6: from any reachable post-push state, evicting every retained
sample restores exactly `n = 0`, `S = NaN`, `M = NaN`,
`reciprocal_sum = NaN` and `sum = 0` (an exact rational zero). -/
theorem claim_C6 (ws : WindowSize) (c : Container) (h : Reached ws c) :
    (c.popN c.n).n = 0 ∧ (c.popN c.n).S.value = PyFloat.nan ∧
      (c.popN c.n).M.value = PyFloat.nan ∧
      (c.popN c.n).reciprocal_sum.value = PyFloat.nan ∧
      (c.popN c.n).sum.value = PyFloat.val 0 := by
  obtain ⟨-, inv⟩ := reached_Inv ws c h
  exact popN_drain c.data c rfl inv.hlen inv.hsum inv.hempty

/-- Witness for C6: drain the window reached by pushing 1, 2, 3 into a
window of size 2. -/
theorem claim_C6_witness :
    ((((Container.init (WindowSize.fin 2)).push [1, 2, 3]).popN
        ((Container.init (WindowSize.fin 2)).push [1, 2, 3]).n).n = 0) ∧
    (((Container.init (WindowSize.fin 2)).push [1, 2, 3]).popN
        ((Container.init (WindowSize.fin 2)).push [1, 2, 3]).n).S.value = PyFloat.nan ∧
    (((Container.init (WindowSize.fin 2)).push [1, 2, 3]).popN
        ((Container.init (WindowSize.fin 2)).push [1, 2, 3]).n).M.value = PyFloat.nan ∧
    (((Container.init (WindowSize.fin 2)).push [1, 2, 3]).popN
        ((Container.init (WindowSize.fin 2)).push [1, 2, 3]).n).reciprocal_sum.value =
      PyFloat.nan ∧
    (((Container.init (WindowSize.fin 2)).push [1, 2, 3]).popN
        ((Container.init (WindowSize.fin 2)).push [1, 2, 3]).n).sum.value = PyFloat.val 0 :=
  claim_C6 _ _ (Reached.step _ [1, 2, 3] (by norm_num [WindowSize.pos]) Reached.init)

/-- C7 counterexample: with the fractional window_size 5/2, pushing
1, 1, 1 leaves 3 retained samples, so `n.current ≤ window_size` fails. -/
theorem claim_C7_counterexample :
    ((Container.init (WindowSize.fin (5/2))).push [1, 1, 1]).n = 3 ∧
      ¬ ((((Container.init (WindowSize.fin (5/2))).push [1, 1, 1]).n : ℚ) ≤ 5/2) := by
  rw [runq_eq]
  refine ⟨rfl, ?_⟩
  norm_num [wqs3]

/-- C7 amended: after every push into a finite positive window,
`n.current ≤ ⌈window_size⌉`; for an integer window size this is the
claimed bound `n.current ≤ window_size`, but a fractional window size is
exceeded by the fractional part (up to one extra sample). -/
theorem claim_C7_amended (q : ℚ) (c : Container)
    (h : Reached (WindowSize.fin q) c) (hq : 0 < q) : (c.n : ℤ) ≤ ⌈q⌉ :=
  reached_ceil_bound q c h hq

/-- Witness for C7 (amended) at window 5/2 with pushes 1, 1, 1. -/
theorem claim_C7_amended_witness :
    (0 : ℚ) < 5/2 ∧
      ((((Container.init (WindowSize.fin (5/2))).push [1, 1, 1]).n : ℤ) ≤ ⌈(5/2 : ℚ)⌉) :=
  ⟨by norm_num,
   claim_C7_amended (5/2) _
     (Reached.step _ [1, 1, 1] (by norm_num [WindowSize.pos]) Reached.init) (by norm_num)⟩

/-- C9: after every push (including construction-time pushes),
`n.current` equals the number of retained samples. -/
theorem claim_C9 (ws : WindowSize) (c : Container) (h : Reached ws c) :
    c.n = c.data.length :=
  (reached_Inv ws c h).2.hlen

/-- Witness for C9 after pushing 1, 2, 3 into a window of size 2. -/
theorem claim_C9_witness :
    ((Container.init (WindowSize.fin 2)).push [1, 2, 3]).n =
      ((Container.init (WindowSize.fin 2)).push [1, 2, 3]).data.length :=
  claim_C9 _ _ (Reached.step _ [1, 2, 3] (by norm_num [WindowSize.pos]) Reached.init)

/-- C10: in every committed post-push state with `n.current = 1`, the
running `S` is exactly 0 (a count of 1 can only arise from the
first-sample branch, which zeroes `S`), and hence the z-score guard
`S > 0 and n > 0` cannot be satisfied with a single retained sample. -/
theorem claim_C10 (ws : WindowSize) (c : Container) (h : Reached ws c)
    (h1 : c.n = 1) :
    c.S.value = PyFloat.val 0 ∧
      zscoreGuard c.S.value (PyFloat.val (c.n : ℚ)) = false := by
  have hS : c.S.value = PyFloat.val 0 := by
    have H : ∀ c, Reached ws c → (c.n = 1 → c.S.value = PyFloat.val 0) := by
      refine reached_inv _ _ ?_ ?_
      · intro h0
        simp [Container.init] at h0
      · intro c x _ _ h1
        exact push1_S_of_n_one c x h1
    exact H c h h1
  refine ⟨hS, ?_⟩
  rw [hS]
  simp [zscoreGuard, PyFloat.gt]

/-- Witness for C10 after a single push into a window of size 5. -/
theorem claim_C10_witness :
    ((Container.init (WindowSize.fin 5)).push [7]).S.value = PyFloat.val 0 ∧
      zscoreGuard ((Container.init (WindowSize.fin 5)).push [7]).S.value
        (PyFloat.val ((((Container.init (WindowSize.fin 5)).push [7]).n : ℕ) : ℚ)) = false :=
  claim_C10 _ _ (Reached.step _ [7] (by norm_num [WindowSize.pos]) Reached.init) (by decide)

/-- The one-push prefix of the window-size-3 run. -/
theorem run3_1 : (Container.init (WindowSize.fin 3)).push [1] = w3s1 := by
  rw [Container.push_eq_foldl]
  show (Container.init (WindowSize.fin 3)).push1 1 = w3s1
  rw [w3s1_eq]

/-- The two-push prefix of the window-size-3 run. -/
theorem run3_2 : (Container.init (WindowSize.fin 3)).push [1, 1] = w3s2 := by
  rw [Container.push_eq_foldl]
  show ((Container.init (WindowSize.fin 3)).push1 1).push1 1 = w3s2
  rw [w3s1_eq, w3s2_eq]

/-! ### Values taken by the built-in subscriptions along the
window-size-3 run (scenario of C8) -/

theorem c8_var_1 : varSub.f (primVec w3s1) = some PyFloat.nan := by
  norm_num [varSub, var, primVec, w3s1, PyFloat.gt]

theorem c8_var_2 : varSub.f (primVec w3s2) = some (PyFloat.val 0) := by
  norm_num [varSub, var, primVec, w3s2, PyFloat.gt, PyFloat.sub, PyFloat.div]

theorem c8_var_3 : varSub.f (primVec w3s3) = some (PyFloat.val 0) := by
  norm_num [varSub, var, primVec, w3s3, PyFloat.gt, PyFloat.sub, PyFloat.div]

theorem c8_var_4 : varSub.f (primVec w3s4) = some (PyFloat.val (1/3)) := by
  norm_num [varSub, var, primVec, w3s4, PyFloat.gt, PyFloat.sub, PyFloat.div]

theorem c8_pv_1 : pop_varSub.f (primVec w3s1) = some PyFloat.nan := by
  norm_num [pop_varSub, pop_var, primVec, w3s1, PyFloat.gt]

theorem c8_pv_2 : pop_varSub.f (primVec w3s2) = some (PyFloat.val 0) := by
  norm_num [pop_varSub, pop_var, primVec, w3s2, PyFloat.gt, PyFloat.div]

theorem c8_pv_3 : pop_varSub.f (primVec w3s3) = some (PyFloat.val 0) := by
  norm_num [pop_varSub, pop_var, primVec, w3s3, PyFloat.gt, PyFloat.div]

theorem c8_pv_4 : pop_varSub.f (primVec w3s4) = some (PyFloat.val (2/9)) := by
  norm_num [pop_varSub, pop_var, primVec, w3s4, PyFloat.gt, PyFloat.div]

theorem c8_std_1 : stdSub.f (primVec w3s1) = some RFloat.nan := by
  norm_num [stdSub, std, primVec, w3s1, PyFloat.gt]

theorem c8_std_2 : stdSub.f (primVec w3s2) = some (RFloat.val 0) := by
  norm_num [stdSub, std, primVec, w3s2, PyFloat.gt, PyFloat.sub, PyFloat.div, pySqrt]

theorem c8_std_3 : stdSub.f (primVec w3s3) = some (RFloat.val 0) := by
  norm_num [stdSub, std, primVec, w3s3, PyFloat.gt, PyFloat.sub, PyFloat.div, pySqrt]

theorem c8_std_4 : stdSub.f (primVec w3s4) = some (RFloat.val (Real.sqrt (1/3))) := by
  norm_num [stdSub, std, primVec, w3s4, PyFloat.gt, PyFloat.sub, PyFloat.div, pySqrt]

theorem c8_ps_1 : pop_stdSub.f (primVec w3s1) = some RFloat.nan := by
  norm_num [pop_stdSub, pop_std, primVec, w3s1, PyFloat.gt]

theorem c8_ps_2 : pop_stdSub.f (primVec w3s2) = some (RFloat.val 0) := by
  norm_num [pop_stdSub, pop_std, primVec, w3s2, PyFloat.gt, PyFloat.div, pySqrt]

theorem c8_ps_3 : pop_stdSub.f (primVec w3s3) = some (RFloat.val 0) := by
  norm_num [pop_stdSub, pop_std, primVec, w3s3, PyFloat.gt, PyFloat.div, pySqrt]

theorem c8_ps_4 : pop_stdSub.f (primVec w3s4) = some (RFloat.val (Real.sqrt (2/9))) := by
  norm_num [pop_stdSub, pop_std, primVec, w3s4, PyFloat.gt, PyFloat.div, pySqrt]

theorem c8_z_1 : zscoreSub.f (primVec w3s1) = some RFloat.nan := by
  norm_num [zscoreSub, zscore, zscoreGuard, primVec, w3s1, PyFloat.gt]

theorem c8_z_2 : zscoreSub.f (primVec w3s2) = some RFloat.nan := by
  norm_num [zscoreSub, zscore, zscoreGuard, primVec, w3s2, PyFloat.gt]

theorem c8_z_3 : zscoreSub.f (primVec w3s3) = some RFloat.nan := by
  norm_num [zscoreSub, zscore, zscoreGuard, primVec, w3s3, PyFloat.gt]

theorem c8_z_4 :
    zscoreSub.f (primVec w3s4) = some (RFloat.val (-(2 * Real.sqrt (1/3)))) := by
  have hs : Real.sqrt ((1 : ℝ)/3) ≠ 0 := by
    rw [Real.sqrt_ne_zero']
    norm_num
  have hsq : Real.sqrt ((1 : ℝ)/3) ^ 2 = 1/3 :=
    Real.sq_sqrt (by norm_num)
  norm_num [zscoreSub, zscore, zscoreGuard, std, primVec, w3s4, PyFloat.gt,
    PyFloat.sub, PyFloat.div, pySqrt, PyFloat.toR, RFloat.div, hs]
  have hsq3 : Real.sqrt 3 ^ 2 = 3 := Real.sq_sqrt (by norm_num)
  have h3 : Real.sqrt 3 ≠ 0 := by
    intro h0
    rw [h0] at hsq3
    norm_num at hsq3
  field_simp
  linear_combination (2 : ℝ) * hsq3

/-! ### Assembled subscription runs for the C8 scenario -/

theorem c8run_var3 : runSubscription varSub PyFloat.nan
    [primVec w3s1, primVec w3s2, primVec w3s3] =
    some ⟨∅, ⟨PyFloat.val 0, [PyFloat.nan, PyFloat.val 0, PyFloat.val 0]⟩⟩ := by
  have h := runCycles_spec varSub (by decide)
    [primVec w3s1, primVec w3s2, primVec w3s3]
    [PyFloat.nan, PyFloat.val 0, PyFloat.val 0] (initLink PyFloat.nan) rfl
    (List.Forall₂.cons c8_var_1 (List.Forall₂.cons c8_var_2
      (List.Forall₂.cons c8_var_3 List.Forall₂.nil)))
  simpa [runSubscription] using h

theorem c8run_var4 : runSubscription varSub PyFloat.nan
    [primVec w3s1, primVec w3s2, primVec w3s3, primVec w3s4] =
    some ⟨∅, ⟨PyFloat.val (1/3),
      [PyFloat.nan, PyFloat.val 0, PyFloat.val 0, PyFloat.val (1/3)]⟩⟩ := by
  have h := runCycles_spec varSub (by decide)
    [primVec w3s1, primVec w3s2, primVec w3s3, primVec w3s4]
    [PyFloat.nan, PyFloat.val 0, PyFloat.val 0, PyFloat.val (1/3)]
    (initLink PyFloat.nan) rfl
    (List.Forall₂.cons c8_var_1 (List.Forall₂.cons c8_var_2
      (List.Forall₂.cons c8_var_3 (List.Forall₂.cons c8_var_4 List.Forall₂.nil))))
  simpa [runSubscription] using h

theorem c8run_pv3 : runSubscription pop_varSub PyFloat.nan
    [primVec w3s1, primVec w3s2, primVec w3s3] =
    some ⟨∅, ⟨PyFloat.val 0, [PyFloat.nan, PyFloat.val 0, PyFloat.val 0]⟩⟩ := by
  have h := runCycles_spec pop_varSub (by decide)
    [primVec w3s1, primVec w3s2, primVec w3s3]
    [PyFloat.nan, PyFloat.val 0, PyFloat.val 0] (initLink PyFloat.nan) rfl
    (List.Forall₂.cons c8_pv_1 (List.Forall₂.cons c8_pv_2
      (List.Forall₂.cons c8_pv_3 List.Forall₂.nil)))
  simpa [runSubscription] using h

theorem c8run_pv4 : runSubscription pop_varSub PyFloat.nan
    [primVec w3s1, primVec w3s2, primVec w3s3, primVec w3s4] =
    some ⟨∅, ⟨PyFloat.val (2/9),
      [PyFloat.nan, PyFloat.val 0, PyFloat.val 0, PyFloat.val (2/9)]⟩⟩ := by
  have h := runCycles_spec pop_varSub (by decide)
    [primVec w3s1, primVec w3s2, primVec w3s3, primVec w3s4]
    [PyFloat.nan, PyFloat.val 0, PyFloat.val 0, PyFloat.val (2/9)]
    (initLink PyFloat.nan) rfl
    (List.Forall₂.cons c8_pv_1 (List.Forall₂.cons c8_pv_2
      (List.Forall₂.cons c8_pv_3 (List.Forall₂.cons c8_pv_4 List.Forall₂.nil))))
  simpa [runSubscription] using h

theorem c8run_std3 : runSubscription stdSub RFloat.nan
    [primVec w3s1, primVec w3s2, primVec w3s3] =
    some ⟨∅, ⟨RFloat.val 0, [RFloat.nan, RFloat.val 0, RFloat.val 0]⟩⟩ := by
  have h := runCycles_spec stdSub (by decide)
    [primVec w3s1, primVec w3s2, primVec w3s3]
    [RFloat.nan, RFloat.val 0, RFloat.val 0] (initLink RFloat.nan) rfl
    (List.Forall₂.cons c8_std_1 (List.Forall₂.cons c8_std_2
      (List.Forall₂.cons c8_std_3 List.Forall₂.nil)))
  simpa [runSubscription] using h

theorem c8run_std4 : runSubscription stdSub RFloat.nan
    [primVec w3s1, primVec w3s2, primVec w3s3, primVec w3s4] =
    some ⟨∅, ⟨RFloat.val (Real.sqrt (1/3)),
      [RFloat.nan, RFloat.val 0, RFloat.val 0, RFloat.val (Real.sqrt (1/3))]⟩⟩ := by
  have h := runCycles_spec stdSub (by decide)
    [primVec w3s1, primVec w3s2, primVec w3s3, primVec w3s4]
    [RFloat.nan, RFloat.val 0, RFloat.val 0, RFloat.val (Real.sqrt (1/3))]
    (initLink RFloat.nan) rfl
    (List.Forall₂.cons c8_std_1 (List.Forall₂.cons c8_std_2
      (List.Forall₂.cons c8_std_3 (List.Forall₂.cons c8_std_4 List.Forall₂.nil))))
  simpa [runSubscription] using h

theorem c8run_ps3 : runSubscription pop_stdSub RFloat.nan
    [primVec w3s1, primVec w3s2, primVec w3s3] =
    some ⟨∅, ⟨RFloat.val 0, [RFloat.nan, RFloat.val 0, RFloat.val 0]⟩⟩ := by
  have h := runCycles_spec pop_stdSub (by decide)
    [primVec w3s1, primVec w3s2, primVec w3s3]
    [RFloat.nan, RFloat.val 0, RFloat.val 0] (initLink RFloat.nan) rfl
    (List.Forall₂.cons c8_ps_1 (List.Forall₂.cons c8_ps_2
      (List.Forall₂.cons c8_ps_3 List.Forall₂.nil)))
  simpa [runSubscription] using h

theorem c8run_ps4 : runSubscription pop_stdSub RFloat.nan
    [primVec w3s1, primVec w3s2, primVec w3s3, primVec w3s4] =
    some ⟨∅, ⟨RFloat.val (Real.sqrt (2/9)),
      [RFloat.nan, RFloat.val 0, RFloat.val 0, RFloat.val (Real.sqrt (2/9))]⟩⟩ := by
  have h := runCycles_spec pop_stdSub (by decide)
    [primVec w3s1, primVec w3s2, primVec w3s3, primVec w3s4]
    [RFloat.nan, RFloat.val 0, RFloat.val 0, RFloat.val (Real.sqrt (2/9))]
    (initLink RFloat.nan) rfl
    (List.Forall₂.cons c8_ps_1 (List.Forall₂.cons c8_ps_2
      (List.Forall₂.cons c8_ps_3 (List.Forall₂.cons c8_ps_4 List.Forall₂.nil))))
  simpa [runSubscription] using h

theorem c8run_z3 : runSubscription zscoreSub RFloat.nan
    [primVec w3s1, primVec w3s2, primVec w3s3] =
    some ⟨∅, ⟨RFloat.nan, [RFloat.nan, RFloat.nan, RFloat.nan]⟩⟩ := by
  have h := runCycles_spec zscoreSub (by decide)
    [primVec w3s1, primVec w3s2, primVec w3s3]
    [RFloat.nan, RFloat.nan, RFloat.nan] (initLink RFloat.nan) rfl
    (List.Forall₂.cons c8_z_1 (List.Forall₂.cons c8_z_2
      (List.Forall₂.cons c8_z_3 List.Forall₂.nil)))
  simpa [runSubscription] using h

theorem c8run_z4 : runSubscription zscoreSub RFloat.nan
    [primVec w3s1, primVec w3s2, primVec w3s3, primVec w3s4] =
    some ⟨∅, ⟨RFloat.val (-(2 * Real.sqrt (1/3))),
      [RFloat.nan, RFloat.nan, RFloat.nan,
        RFloat.val (-(2 * Real.sqrt (1/3)))]⟩⟩ := by
  have h := runCycles_spec zscoreSub (by decide)
    [primVec w3s1, primVec w3s2, primVec w3s3, primVec w3s4]
    [RFloat.nan, RFloat.nan, RFloat.nan, RFloat.val (-(2 * Real.sqrt (1/3)))]
    (initLink RFloat.nan) rfl
    (List.Forall₂.cons c8_z_1 (List.Forall₂.cons c8_z_2
      (List.Forall₂.cons c8_z_3 (List.Forall₂.cons c8_z_4 List.Forall₂.nil))))
  simpa [runSubscription] using h

/-- C8: window_size 3 with the built-in `var`, `std`, `pop_var`,
`pop_std` and `zscore` subscriptions made before any data.  After the
commit cycles of pushing 1, 1, 1 the derived outputs are
var = 0, std = 0, pop_var = 0, pop_std = 0 and zscore = NaN; after the
further push of 0 (which evicts the first 1) they are var = 1/3,
std = √(1/3), pop_var = 2/9, pop_std = √(2/9) and
zscore = −2·√(1/3), and the history of var is [NaN, 0, 0, 1/3]. -/
theorem claim_C8 :
    runSubscription varSub PyFloat.nan
      [primVec ((Container.init (WindowSize.fin 3)).push [1]),
       primVec ((Container.init (WindowSize.fin 3)).push [1, 1]),
       primVec ((Container.init (WindowSize.fin 3)).push [1, 1, 1])] =
      some ⟨∅, ⟨PyFloat.val 0, [PyFloat.nan, PyFloat.val 0, PyFloat.val 0]⟩⟩ ∧
    runSubscription stdSub RFloat.nan
      [primVec ((Container.init (WindowSize.fin 3)).push [1]),
       primVec ((Container.init (WindowSize.fin 3)).push [1, 1]),
       primVec ((Container.init (WindowSize.fin 3)).push [1, 1, 1])] =
      some ⟨∅, ⟨RFloat.val 0, [RFloat.nan, RFloat.val 0, RFloat.val 0]⟩⟩ ∧
    runSubscription pop_varSub PyFloat.nan
      [primVec ((Container.init (WindowSize.fin 3)).push [1]),
       primVec ((Container.init (WindowSize.fin 3)).push [1, 1]),
       primVec ((Container.init (WindowSize.fin 3)).push [1, 1, 1])] =
      some ⟨∅, ⟨PyFloat.val 0, [PyFloat.nan, PyFloat.val 0, PyFloat.val 0]⟩⟩ ∧
    runSubscription pop_stdSub RFloat.nan
      [primVec ((Container.init (WindowSize.fin 3)).push [1]),
       primVec ((Container.init (WindowSize.fin 3)).push [1, 1]),
       primVec ((Container.init (WindowSize.fin 3)).push [1, 1, 1])] =
      some ⟨∅, ⟨RFloat.val 0, [RFloat.nan, RFloat.val 0, RFloat.val 0]⟩⟩ ∧
    runSubscription zscoreSub RFloat.nan
      [primVec ((Container.init (WindowSize.fin 3)).push [1]),
       primVec ((Container.init (WindowSize.fin 3)).push [1, 1]),
       primVec ((Container.init (WindowSize.fin 3)).push [1, 1, 1])] =
      some ⟨∅, ⟨RFloat.nan, [RFloat.nan, RFloat.nan, RFloat.nan]⟩⟩ ∧
    runSubscription varSub PyFloat.nan
      [primVec ((Container.init (WindowSize.fin 3)).push [1]),
       primVec ((Container.init (WindowSize.fin 3)).push [1, 1]),
       primVec ((Container.init (WindowSize.fin 3)).push [1, 1, 1]),
       primVec ((Container.init (WindowSize.fin 3)).push [1, 1, 1, 0])] =
      some ⟨∅, ⟨PyFloat.val (1/3),
        [PyFloat.nan, PyFloat.val 0, PyFloat.val 0, PyFloat.val (1/3)]⟩⟩ ∧
    runSubscription stdSub RFloat.nan
      [primVec ((Container.init (WindowSize.fin 3)).push [1]),
       primVec ((Container.init (WindowSize.fin 3)).push [1, 1]),
       primVec ((Container.init (WindowSize.fin 3)).push [1, 1, 1]),
       primVec ((Container.init (WindowSize.fin 3)).push [1, 1, 1, 0])] =
      some ⟨∅, ⟨RFloat.val (Real.sqrt (1/3)),
        [RFloat.nan, RFloat.val 0, RFloat.val 0, RFloat.val (Real.sqrt (1/3))]⟩⟩ ∧
    runSubscription pop_varSub PyFloat.nan
      [primVec ((Container.init (WindowSize.fin 3)).push [1]),
       primVec ((Container.init (WindowSize.fin 3)).push [1, 1]),
       primVec ((Container.init (WindowSize.fin 3)).push [1, 1, 1]),
       primVec ((Container.init (WindowSize.fin 3)).push [1, 1, 1, 0])] =
      some ⟨∅, ⟨PyFloat.val (2/9),
        [PyFloat.nan, PyFloat.val 0, PyFloat.val 0, PyFloat.val (2/9)]⟩⟩ ∧
    runSubscription pop_stdSub RFloat.nan
      [primVec ((Container.init (WindowSize.fin 3)).push [1]),
       primVec ((Container.init (WindowSize.fin 3)).push [1, 1]),
       primVec ((Container.init (WindowSize.fin 3)).push [1, 1, 1]),
       primVec ((Container.init (WindowSize.fin 3)).push [1, 1, 1, 0])] =
      some ⟨∅, ⟨RFloat.val (Real.sqrt (2/9)),
        [RFloat.nan, RFloat.val 0, RFloat.val 0, RFloat.val (Real.sqrt (2/9))]⟩⟩ ∧
    runSubscription zscoreSub RFloat.nan
      [primVec ((Container.init (WindowSize.fin 3)).push [1]),
       primVec ((Container.init (WindowSize.fin 3)).push [1, 1]),
       primVec ((Container.init (WindowSize.fin 3)).push [1, 1, 1]),
       primVec ((Container.init (WindowSize.fin 3)).push [1, 1, 1, 0])] =
      some ⟨∅, ⟨RFloat.val (-(2 * Real.sqrt (1/3))),
        [RFloat.nan, RFloat.nan, RFloat.nan,
          RFloat.val (-(2 * Real.sqrt (1/3)))]⟩⟩ := by
  rw [run3_1, run3_2, run3a_eq, run3_eq]
  exact ⟨c8run_var3, c8run_std3, c8run_pv3, c8run_ps3, c8run_z3,
    c8run_var4, c8run_std4, c8run_pv4, c8run_ps4, c8run_z4⟩

end RollStats
